import Mathlib

/-!
Shallow embedding of `src/api/app/game_controller.py` (the wchess session
orchestrator).  Pure data is translated directly; the controller's side
effects (socket emits, broker topology changes, settlement-contract calls)
are recorded in an explicit effect trace appended to a `SystemState`; the
Redis store and the in-process `GameRegistry` are association lists inside
that state.  A Python exception that propagates out of an operation is
modelled as `Except.error`; every error site in the embedding corresponds
to a raise site in the source (CustomException, KeyError, IndexError,
ValueError).

Modules of the repository that are not under `src/` (app.constants,
app.models, app.utils, app.game_registry) are modelled from the spec where
the spec pins them down; each such definition carries a doc comment saying
so.
-/

/-- Association-list lookup, modelling Python dict subscription (`m[k]`)
and Redis `get` on a keyed store. -/
def alookup {α : Type} (m : List (String × α)) (k : String) : Option α :=
  match m with
  | [] => none
  | (k', v) :: rest => if k' = k then some v else alookup rest k

/-- Association-list key removal, modelling Python `del m[k]` and Redis
`delete`. -/
def aremove {α : Type} (m : List (String × α)) (k : String) : List (String × α) :=
  match m with
  | [] => []
  | (k', v) :: rest => if k' = k then aremove rest k else (k', v) :: aremove rest k

/-- Association-list update, modelling Python dict assignment (`m[k] = v`)
and Redis `set`: afterwards exactly one entry for `k` exists. -/
def aset {α : Type} (m : List (String × α)) (k : String) (v : α) : List (String × α) :=
  (k, v) :: aremove m k

/-- Index of the first occurrence of `x`, modelling Python `list.index`
(which raises ValueError when absent, hence `Option`). -/
def indexOfP (l : List String) (x : String) : Option Nat :=
  match l with
  | [] => none
  | y :: rest => if y = x then some 0 else (indexOfP rest x).map (· + 1)

/-- Modelled from the spec: `MILLISECONDS_PER_MINUTE` lives in
`app.constants`, which is not under `src/`; the spec fixes the clock reset
to `timeControl × 60000`. -/
def MILLISECONDS_PER_MINUTE : Int := 60000

/-- Modelled from the spec: `BROADCAST_KEY` lives in `app.constants`,
which is not under `src/`; the spec describes it as "a single shared
broadcast key constant". Its exact string value is irrelevant; events
published with this routing key are broadcasts. -/
def BROADCAST_KEY : String := "broadcast"

/-- Modelled from the spec: `app.models.Colour` is not under `src/`; the
spec speaks of the two colours BLACK and WHITE.  The controller iterates
over the list `[BLACK, WHITE]`. -/
inductive Colour where
  | black
  | white
  deriving DecidableEq, Repr

/-- Modelled from the spec: `app.models.Outcome` is not under `src/`; the
spec speaks of "an abandonment outcome" carried by the forfeiture move
event. -/
inductive Outcome where
  | abandoned
  deriving DecidableEq, Repr

/-- Modelled from the spec: the external rules engine's board
(`chess.Board`) is opaque state; `Board()` is the initial position and
`board.reset()` returns to it. -/
inductive Board where
  | pos (moves : List String)
  deriving DecidableEq, Repr

/-- The initial position, `chess.Board()`. -/
def Board.init : Board := Board.pos []

/-- Model of `board.reset()`: back to the initial position. -/
def Board.reset (_ : Board) : Board := Board.pos []

/-- Structured event payloads as built by the controller
(`app.models.Event` data dicts). -/
inductive EventData where
  | text (s : String)
  | gameInfo (wagerAmount : Int) (timeControl : Int) (totalRounds : Nat)
  | start (colour : Colour) (timeRemaining : Int) (round : Nat) (totalRounds : Nat)
  | matchEnded (overallWinner : Option Nat)
  | moveEv (winner : Nat) (outcome : Outcome) (matchScore : List (String × Int))
  deriving DecidableEq, Repr

/-- Wire event `app.models.Event`: `{name, data}` as published to the fan-out. -/
structure Event where
  name : String
  data : EventData
  deriving DecidableEq, Repr

/-- One observable side effect of the controller: a direct socket emit, a
publish onto a game's exchange under a routing key, a transport-room or
broker-topology operation, a settlement-contract call, or a usage-counter
increment. -/
inductive Effect where
  | emit (name : String) (data : EventData) (target : String)
  | publish (gid : String) (ev : Event) (routingKey : String)
  | enterRoom (sid gid : String)
  | leaveRoom (sid gid : String)
  | closeRoom (gid : String)
  | exchangeDeclare (gid : String)
  | exchangeDelete (gid : String)
  | queueDeclare (gid sid : String)
  | queueBind (gid sid routingKey : String)
  | queueUnbind (gid sid routingKey : String)
  | basicConsume (gid sid : String)
  | basicCancel (ctag : String)
  | declareWinner (gid walletAddr : String)
  | declareDraw (gid : String)
  | cancelGameSC (gid : String)
  | incrStat (key : String) (amount : Int)
  deriving DecidableEq, Repr

/-- Game record `app.models.Game`: one record per match, with the fields the
controller constructs and mutates. -/
structure Game where
  players : List String
  board : Board
  wager : Int
  player_wallet_addrs : List (String × String)
  time_control : Int
  match_score : List (String × Int)
  n_rounds : Nat
  round : Nat
  tr_white : Int
  tr_black : Int
  finished : Bool := false
  last_turn_timestamp : Int := 0
  deriving DecidableEq, Repr

/-- Modelled from the spec: the values in `app.constants` that
parameterise admission checks (`CONCURRENT_GAME_LIMIT`,
`VALID_WAGER_RANGE`, `VALID_TIME_CONTROLS`, `VALID_N_ROUNDS_RANGE`) are
not under `src/`; they are carried as a configuration record. Ranges are
inclusive pairs, as in Python's `range(lo, hi + 1)` membership test. -/
structure Config where
  concurrent_game_limit : Nat
  valid_wager_range : Int × Int
  valid_time_controls : List Int
  valid_n_rounds_range : Nat × Nat
  deriving DecidableEq, Repr

/-- The orchestrator-visible world: the Redis store of serialized games,
the in-process registry (connection id → game id, game id → consumer
tags; modelled from the spec since `app.game_registry` is not under
`src/`), and the chronological trace of emitted effects. -/
structure SystemState where
  store : List (String × Game)
  player_gid : List (String × String)
  game_ctags : List (String × List String)
  effects : List Effect
  deriving DecidableEq, Repr

/-- Modelled from the spec: `utils.opponent_ind` is not under `src/`; the
spec says "compute the opponent's index" — the other of the two player
indices 0 and 1. -/
def opponent_ind (i : Nat) : Nat := 1 - i

/-- Deterministic consumer-tag model for the listener started per
(game, connection) queue. -/
def ctagName (gid sid : String) : String := gid ++ ":" ++ sid

/-- Embeds `GameController._validate_game_creation`: capacity scan, wager range,
time control enumeration, rounds range; returns the error message of the
first failing check (`CustomException` messages abbreviated). -/
def _validate_game_creation (cfg : Config) (s : SystemState)
    (time_control wager : Int) (n_rounds : Nat) : Option String :=
  if cfg.concurrent_game_limit ≤ s.store.length then
    some "Server at capacity. Please come back later"
  else if ¬ (cfg.valid_wager_range.1 ≤ wager ∧ wager ≤ cfg.valid_wager_range.2) then
    some "Invalid wager"
  else if time_control ∉ cfg.valid_time_controls then
    some "Invalid time control"
  else if ¬ (cfg.valid_n_rounds_range.1 ≤ n_rounds ∧ n_rounds ≤ cfg.valid_n_rounds_range.2) then
    some "Invalid number of rounds"
  else
    none

/-- Embeds `GameController.create`: validate, build the single-player game with
both clocks at `time_control * MILLISECONDS_PER_MINUTE`, record the
registry entry, persist, emit the private "gameId", declare the exchange,
declare and bind the creator's queue, start the listener.  The fresh
`uuid4` game id is a parameter. -/
def create (cfg : Config) (gid sid : String) (time_control wager : Int)
    (wallet_addr : String) (n_rounds : Nat) (s : SystemState) :
    Except String SystemState :=
  match _validate_game_creation cfg s time_control wager n_rounds with
  | some err => .error err
  | none =>
    let tr := time_control * MILLISECONDS_PER_MINUTE
    let game : Game :=
      { players := [sid], board := Board.init, wager := wager,
        player_wallet_addrs := [(sid, wallet_addr)], time_control := time_control,
        match_score := [(sid, 0)], n_rounds := n_rounds, round := 1,
        tr_white := tr, tr_black := tr }
    .ok { store := aset s.store gid game,
          player_gid := aset s.player_gid sid gid,
          game_ctags := aset s.game_ctags gid
            (ctagName gid sid :: (alookup s.game_ctags gid).getD []),
          effects := s.effects ++
            [Effect.enterRoom sid gid,
             Effect.emit "gameId" (EventData.text gid) sid,
             Effect.exchangeDeclare gid,
             Effect.queueDeclare gid sid,
             Effect.queueBind gid sid sid,
             Effect.queueBind gid sid BROADCAST_KEY,
             Effect.basicConsume gid sid] }

/-- Embeds `GameController.get_game_details`: UUID-format check (the external
`uuid.UUID` parser is a boolean parameter), load, reject a full game,
emit the private summary. -/
def get_game_details (validGid : String → Bool) (sid gid : String)
    (s : SystemState) : Except String SystemState :=
  if ¬ validGid gid then .error "Invalid game code"
  else
    match alookup s.store gid with
    | none => .error "Game not found"
    | some game =>
      if 2 ≤ game.players.length then .error "This game already has two players"
      else .ok { s with effects := s.effects ++
        [Effect.emit "gameInfo"
          (EventData.gameInfo game.wager game.time_control game.n_rounds) sid] }

/-- The joiner-side mutation `accept_game` applies to the loaded game:
append the connection, add its wallet and zero score, shuffle the player
order, stamp `last_turn_timestamp`. -/
def accepted_game (shuffle : List String → List String) (now : Int)
    (sid wallet_addr : String) (game : Game) : Game :=
  { game with
    players := shuffle (game.players ++ [sid]),
    player_wallet_addrs := aset game.player_wallet_addrs sid wallet_addr,
    match_score := aset game.match_score sid 0,
    last_turn_timestamp := now }

/-- Embeds `GameController.accept_game`: load, join room, append the joiner,
add wallet and zero score, record the registry entry, shuffle the players
(the random permutation is a function parameter), declare/bind the
joiner's queue, start its listener, stamp `last_turn_timestamp`, persist,
publish per-player "start" events pairing `players[i]` with the i-th
entry of `[BLACK, WHITE]`, and bump the usage counters. -/
def accept_game (shuffle : List String → List String) (now : Int)
    (sid gid wallet_addr : String) (s : SystemState) :
    Except String SystemState :=
  match alookup s.store gid with
  | none => .error "Game not found"
  | some game =>
    let players := shuffle (game.players ++ [sid])
    let game := accepted_game shuffle now sid wallet_addr game
    match players.get? 0, players.get? 1 with
    | some p0, some p1 =>
      .ok { store := aset s.store gid game,
            player_gid := aset s.player_gid sid gid,
            game_ctags := aset s.game_ctags gid
              (ctagName gid sid :: (alookup s.game_ctags gid).getD []),
            effects := s.effects ++
              [Effect.enterRoom sid gid,
               Effect.queueDeclare gid sid,
               Effect.queueBind gid sid sid,
               Effect.queueBind gid sid BROADCAST_KEY,
               Effect.basicConsume gid sid,
               Effect.publish gid
                 ⟨"start", EventData.start Colour.black game.tr_white game.round game.n_rounds⟩ p0,
               Effect.publish gid
                 ⟨"start", EventData.start Colour.white game.tr_white game.round game.n_rounds⟩ p1,
               Effect.incrStat "n_games" 1,
               Effect.incrStat "total_wagered" (game.wager * 2)] }
    | _, _ => .error "IndexError"

/-- Embeds `GameController.clear_game`: drop the registry record, unbind the
player's queue from both routing keys, leave the room; then either remove
the player from `players` and persist (another player remains), or — last
player — close the room, cancel every tracked consumer, drop the tags,
delete the exchange, and delete the snapshot. -/
def clear_game (sid : String) (game : Game) (gid : String) (s : SystemState) :
    Except String SystemState :=
  let s1 : SystemState :=
    { s with
      player_gid := aremove s.player_gid sid,
      effects := s.effects ++
        [Effect.queueUnbind gid sid sid,
         Effect.queueUnbind gid sid BROADCAST_KEY,
         Effect.leaveRoom sid gid] }
  if 1 < game.players.length then
    if sid ∈ game.players then
      .ok { s1 with store := aset s1.store gid { game with players := game.players.erase sid } }
    else .error "ValueError"
  else
    .ok { s1 with
          store := aremove s1.store gid,
          game_ctags := aremove s1.game_ctags gid,
          effects := s1.effects ++
            ([Effect.closeRoom gid] ++
             ((alookup s1.game_ctags gid).getD []).map Effect.basicCancel ++
             [Effect.exchangeDelete gid]) }

/-- The round-advance mutation `handle_end_of_round` applies to the
re-fetched game: bump `round`, restore the pre-wait `match_score`, reset
the board, reverse `players`, reset both clocks, stamp the timestamp. -/
def next_round_game (now : Int) (match_score : List (String × Int))
    (fresh : Game) : Game :=
  { fresh with
    round := fresh.round + 1,
    match_score := match_score,
    board := Board.reset fresh.board,
    players := fresh.players.reverse,
    tr_white := fresh.time_control * MILLISECONDS_PER_MINUTE,
    tr_black := fresh.time_control * MILLISECONDS_PER_MINUTE,
    last_turn_timestamp := now }

/-- Embeds `GameController.handle_end_of_round`.  Final round: compare the two
players' scores, broadcast "matchEnded" with the winner index (or null),
mark finished, persist, and call the settlement contract exactly once.
Non-final round: after the fixed cooldown (the 15-unit sleep itself has no
state content; the state argument is the post-sleep world, whose store may
have been mutated concurrently), re-fetch the game, bump `round`, restore
the pre-wait match score, reset the board, reverse `players`, reset both
clocks, stamp the timestamp, persist, and — only if the refreshed game is
not finished — publish fresh per-player "start" events. -/
def handle_end_of_round (now : Int) (gid : String) (game : Game)
    (s : SystemState) : Except String SystemState :=
  let match_score := game.match_score
  if game.round = game.n_rounds then
    match game.players.get? 0, game.players.get? 1 with
    | some p0, some p1 =>
      match alookup match_score p0, alookup match_score p1 with
      | some sc0, some sc1 =>
        let overall_winner : Option Nat :=
          if sc1 < sc0 then some 0 else if sc0 < sc1 then some 1 else none
        let s2 : SystemState :=
          { s with
            effects := s.effects ++
              [Effect.publish gid ⟨"matchEnded", EventData.matchEnded overall_winner⟩
                BROADCAST_KEY],
            store := aset s.store gid { game with finished := true } }
        match overall_winner with
        | some w =>
          match game.players.get? w with
          | some pw =>
            match alookup game.player_wallet_addrs pw with
            | some addr =>
              .ok { s2 with effects := s2.effects ++ [Effect.declareWinner gid addr] }
            | none => .error "KeyError"
          | none => .error "IndexError"
        | none => .ok { s2 with effects := s2.effects ++ [Effect.declareDraw gid] }
      | _, _ => .error "KeyError"
    | _, _ => .error "IndexError"
  else
    match game.players.get? 0 with
    | none => .error "IndexError"
    | some _ =>
      match alookup s.store gid with
      | none => .error "Game not found"
      | some fresh =>
        let game2 := next_round_game now match_score fresh
        let s2 : SystemState := { s with store := aset s.store gid game2 }
        if game2.finished then .ok s2
        else
          match game2.players.get? 0, game2.players.get? 1 with
          | some p0, some p1 =>
            .ok { s2 with effects := s2.effects ++
              [Effect.publish gid
                ⟨"start", EventData.start Colour.black game2.tr_white game2.round game2.n_rounds⟩ p0,
               Effect.publish gid
                ⟨"start", EventData.start Colour.white game2.tr_white game2.round game2.n_rounds⟩ p1] }
          | _, _ => .error "IndexError"

/-- Embeds `GameController.handle_exit`: no-op when the registry has no entry for
the connection; otherwise load the game, and when it has more than one
player and is unfinished publish the abandonment "move" and "matchEnded"
events, mark finished, persist, declare the opponent the winner on the
contract; in every case finish with `clear_game`. -/
def handle_exit (sid : String) (s : SystemState) : Except String SystemState :=
  match alookup s.player_gid sid with
  | none => .ok s
  | some gid =>
    match alookup s.store gid with
    | none => .error "Game not found"
    | some game =>
      if 1 < game.players.length ∧ game.finished = false then
        match indexOfP game.players sid with
        | none => .error "ValueError"
        | some i =>
          let winner_ind := opponent_ind i
          let s2 : SystemState :=
            { s with
              effects := s.effects ++
                [Effect.publish gid
                  ⟨"move", EventData.moveEv winner_ind Outcome.abandoned game.match_score⟩
                  BROADCAST_KEY,
                 Effect.publish gid
                  ⟨"matchEnded", EventData.matchEnded (some winner_ind)⟩ BROADCAST_KEY] }
          let gameF : Game := { game with finished := true }
          let s3 : SystemState := { s2 with store := aset s2.store gid gameF }
          match gameF.players.get? winner_ind with
          | none => .error "IndexError"
          | some pw =>
            match alookup gameF.player_wallet_addrs pw with
            | none => .error "KeyError"
            | some addr =>
              clear_game sid gameF gid
                { s3 with effects := s3.effects ++ [Effect.declareWinner gid addr] }
      else
        clear_game sid game gid s

/-- Result of the bounded-retry delivery wrapper
(`_init_listener.on_message` + `_on_emit_done`): either some attempt
succeeded or the event was logged and dropped after the final attempt.
The type has no error alternative: a delivery failure is consumed by the
`except` clause of `_on_emit_done` and never surfaces to a caller. -/
inductive DeliveryOutcome where
  | delivered (attempts : Nat)
  | dropped (attempts : Nat)
  deriving DecidableEq, Repr

/-- The retry recursion of `_on_emit_done`: attempt `attempts` is made
(`fails attempts` tells whether the emit task failed); on failure with
`attempts < maxRetries` the same event is resubmitted to the same
connection with `attempts + 1`; otherwise the failure is logged and the
event dropped. `on_message` enters at `attempts = 1`. -/
def deliver_with_retry (maxRetries : Nat) (fails : Nat → Bool) (attempts : Nat) :
    DeliveryOutcome :=
  if fails attempts then
    if attempts < maxRetries then deliver_with_retry maxRetries fails (attempts + 1)
    else DeliveryOutcome.dropped attempts
  else DeliveryOutcome.delivered attempts
termination_by maxRetries - attempts
decreasing_by omega

/-- The attempt counter at which the wrapper stopped; with entry at 1 this
is the total number of emit attempts made. -/
def DeliveryOutcome.attempts : DeliveryOutcome → Nat
  | delivered a => a
  | dropped a => a

/-- Whether an effect is a call on the settlement contract
(`declare_winner`, `declare_draw`, `cancel_game`). -/
def is_settlement : Effect → Bool := fun e =>
  match e with
  | Effect.declareWinner _ _ => true
  | Effect.declareDraw _ => true
  | Effect.cancelGameSC _ => true
  | _ => false

/-- Number of settlement-contract calls in an effect trace. -/
def settlement_count (l : List Effect) : Nat := (l.filter is_settlement).length

/-- Key set of a game's `match_score` mapping. -/
def score_keys (g : Game) : List String := g.match_score.map Prod.fst

/-- The §3 invariant "matchScore keys ⊆ players" for a single game. -/
def score_keys_sub (g : Game) : Prop := ∀ k ∈ score_keys g, k ∈ g.players

/-- Boolean form of `score_keys_sub` for the snapshot stored at `gid`
(vacuously true when no snapshot exists). -/
def stored_score_sub (s : SystemState) (gid : String) : Bool :=
  match alookup s.store gid with
  | some g => (score_keys g).all (fun k => g.players.contains k)
  | none => true

/-- Length of `players` in the snapshot stored at `gid`. -/
def stored_players_len (s : SystemState) (gid : String) : Option Nat :=
  (alookup s.store gid).map (fun g => g.players.length)

/-- The colour carried by the first "start" event in the trace that is
routed to `target`. -/
def start_colour_to (l : List Effect) (target : String) : Option Colour :=
  match l with
  | [] => none
  | Effect.publish _ ⟨"start", EventData.start c _ _ _⟩ t :: rest =>
    if t = target then some c else start_colour_to rest target
  | _ :: rest => start_colour_to rest target

/-- Empty world: no games, no registry entries, no effects yet. -/
def sEmpty : SystemState := ⟨[], [], [], []⟩

/-- A sample configuration: limit 10 concurrent games, wagers in [1,100],
time controls {3,5,10} minutes, 1–6 rounds. -/
def cfgW : Config := ⟨10, (1, 100), [3, 5, 10], (1, 6)⟩

/-- A two-player, unfinished, round-1 game. -/
def gTwo : Game :=
  { players := ["a", "b"], board := Board.init, wager := 5,
    player_wallet_addrs := [("a", "wa"), ("b", "wb")], time_control := 3,
    match_score := [("a", 1), ("b", 0)], n_rounds := 3, round := 1,
    tr_white := 180000, tr_black := 180000 }

/-- World holding `gTwo` under game id "g1" with both registry entries. -/
def sTwo : SystemState :=
  ⟨[("g1", gTwo)], [("a", "g1"), ("b", "g1")], [("g1", ["g1:a", "g1:b"])], []⟩

/-- A single-player game awaiting an opponent. -/
def gSolo : Game :=
  { players := ["a"], board := Board.init, wager := 5,
    player_wallet_addrs := [("a", "wa")], time_control := 3,
    match_score := [("a", 0)], n_rounds := 3, round := 1,
    tr_white := 180000, tr_black := 180000 }

/-- World holding `gSolo` under game id "g1". -/
def sSolo : SystemState := ⟨[("g1", gSolo)], [("a", "g1")], [("g1", ["g1:a"])], []⟩

/-- A two-player game sitting on its final round (`round = n_rounds`)
with score 3 : 1. -/
def gFinal : Game :=
  { players := ["a", "b"], board := Board.init, wager := 5,
    player_wallet_addrs := [("a", "wa"), ("b", "wb")], time_control := 3,
    match_score := [("a", 3), ("b", 1)], n_rounds := 2, round := 2,
    tr_white := 180000, tr_black := 180000 }

/-- World holding `gFinal` under game id "g1". -/
def sFinal : SystemState :=
  ⟨[("g1", gFinal)], [("a", "g1"), ("b", "g1")], [("g1", ["g1:a", "g1:b"])], []⟩

/-- The single-player game `create cfgW "g9" "a" 3 50 "wa" 2` builds. -/
def gNew : Game :=
  { players := ["a"], board := Board.init, wager := 50,
    player_wallet_addrs := [("a", "wa")], time_control := 3,
    match_score := [("a", 0)], n_rounds := 2, round := 1,
    tr_white := 180000, tr_black := 180000 }

/-- The world produced by that `create` call starting from `sEmpty`. -/
def sNew : SystemState :=
  ⟨[("g9", gNew)], [("a", "g9")], [("g9", ["g9:a"])],
   [Effect.enterRoom "a" "g9", Effect.emit "gameId" (EventData.text "g9") "a",
    Effect.exchangeDeclare "g9", Effect.queueDeclare "g9" "a",
    Effect.queueBind "g9" "a" "a", Effect.queueBind "g9" "a" BROADCAST_KEY,
    Effect.basicConsume "g9" "a"]⟩

/-- World after player "b" accepts the game of `sSolo` (identity
shuffle). -/
def sC7after : SystemState :=
  match accept_game id 0 "b" "g1" "wb" sSolo with
  | .ok s' => s'
  | .error _ => sSolo

theorem retry_le (m : Nat) (f : Nat → Bool) (a : Nat) :
    a ≤ m → (deliver_with_retry m f a).attempts ≤ m := by
  induction a using deliver_with_retry.induct m f with
  | case1 a hf hlt ih =>
    intro _
    rw [deliver_with_retry, if_pos hf, if_pos hlt]
    exact ih (by omega)
  | case2 a hf hlt =>
    intro ha
    rw [deliver_with_retry, if_pos hf, if_neg hlt]
    exact ha
  | case3 a hf =>
    intro ha
    rw [deliver_with_retry, if_neg hf]
    exact ha

theorem retry_all_fail (m : Nat) (f : Nat → Bool) (a : Nat) :
    (∀ k, f k = true) → 1 ≤ a → a ≤ m →
    deliver_with_retry m f a = DeliveryOutcome.dropped m := by
  induction a using deliver_with_retry.induct m f with
  | case1 a hf hlt ih =>
    intro hall h1 ha
    rw [deliver_with_retry, if_pos hf, if_pos hlt]
    exact ih hall (by omega) (by omega)
  | case2 a hf hlt =>
    intro hall h1 ha
    rw [deliver_with_retry, if_pos hf, if_neg hlt]
    have he : a = m := by omega
    rw [he]
  | case3 a hf =>
    intro hall h1 ha
    rw [hall a] at hf
    simp at hf

@[simp] theorem alookup_aset_self {α : Type} (m : List (String × α)) (k : String) (v : α) :
    alookup (aset m k v) k = some v := by
  simp [alookup, aset]

@[simp] theorem alookup_aremove_self {α : Type} (m : List (String × α)) (k : String) :
    alookup (aremove m k) k = none := by
  induction m with
  | nil => rfl
  | cons p rest ih =>
    by_cases h : p.1 = k
    · simpa [aremove, h] using ih
    · simpa [aremove, alookup, h] using ih

theorem alookup_aremove_ne {α : Type} (m : List (String × α)) (k k' : String)
    (h : k' ≠ k) : alookup (aremove m k) k' = alookup m k' := by
  induction m with
  | nil => rfl
  | cons p rest ih =>
    by_cases hp : p.1 = k
    · have hpk : p.1 ≠ k' := by rw [hp]; exact fun he => h he.symm
      simp [aremove, alookup, hp, hpk, h.symm, ih]
    · by_cases hq : p.1 = k'
      · simp [aremove, alookup, hp, hq, h]
      · simp [aremove, alookup, hp, hq, ih]

theorem alookup_aset_ne {α : Type} (m : List (String × α)) (k k' : String) (v : α)
    (h : k' ≠ k) : alookup (aset m k v) k' = alookup m k' := by
  rw [aset, alookup, if_neg (fun he => h he.symm)]
  exact alookup_aremove_ne m k k' h

theorem indexOfP_mem (l : List String) (x : String) (i : Nat) :
    indexOfP l x = some i → x ∈ l := by
  induction l generalizing i with
  | nil => intro h; simp [indexOfP] at h
  | cons y rest ih =>
    intro h
    by_cases hy : y = x
    · rw [hy]; exact List.mem_cons_self x rest
    · simp only [indexOfP, if_neg hy, Option.map_eq_some'] at h
      obtain ⟨j, hj, _⟩ := h
      exact List.mem_cons_of_mem y (ih j hj)

theorem settlement_count_append (l1 l2 : List Effect) :
    settlement_count (l1 ++ l2) = settlement_count l1 + settlement_count l2 := by
  simp [settlement_count, List.filter_append]

theorem settlement_count_map_cancel (l : List String) :
    settlement_count (l.map Effect.basicCancel) = 0 := by
  induction l with
  | nil => rfl
  | cons x xs ih => simp [settlement_count, is_settlement, List.filter_cons] at ih ⊢

theorem handle_end_of_round_final_run
    (now : Int) (gid p0 p1 w0 w1 : String) (sc0 sc1 : Int) (g : Game) (s : SystemState)
    (hr : g.round = g.n_rounds)
    (hp : g.players = [p0, p1])
    (hs0 : alookup g.match_score p0 = some sc0)
    (hs1 : alookup g.match_score p1 = some sc1)
    (hw0 : alookup g.player_wallet_addrs p0 = some w0)
    (hw1 : alookup g.player_wallet_addrs p1 = some w1) :
    handle_end_of_round now gid g s = .ok
      { s with
        store := aset s.store gid { g with finished := true },
        effects := s.effects ++
          [Effect.publish gid ⟨"matchEnded", EventData.matchEnded
            (if sc1 < sc0 then some 0 else if sc0 < sc1 then some 1 else none)⟩ BROADCAST_KEY,
           if sc1 < sc0 then Effect.declareWinner gid w0
           else if sc0 < sc1 then Effect.declareWinner gid w1
           else Effect.declareDraw gid] } := by
  simp only [handle_end_of_round, hr, if_true, hp, List.get?, hs0, hs1]
  rcases lt_trichotomy sc0 sc1 with hlt | heq | hgt
  · simp [if_neg (not_lt_of_lt hlt), if_pos hlt, hp, hw1, List.append_assoc]
  · simp [heq, lt_irrefl, List.append_assoc]
  · simp [if_pos hgt, hp, hw0, List.append_assoc]

theorem aremove_aremove_self {α : Type} (m : List (String × α)) (k : String) :
    aremove (aremove m k) k = aremove m k := by
  induction m with
  | nil => rfl
  | cons p rest ih =>
    by_cases h : p.1 = k
    · simp [aremove, h, ih]
    · simp [aremove, h, ih]

theorem aset_aset {α : Type} (m : List (String × α)) (k : String) (v v' : α) :
    aset (aset m k v) k v' = aset m k v' := by
  simp [aset, aremove, aremove_aremove_self]

theorem handle_end_of_round_next_run
    (now : Int) (gid p0 q0 q1 : String) (g fresh : Game) (s : SystemState)
    (hr : g.round ≠ g.n_rounds)
    (hp0 : g.players.get? 0 = some p0)
    (hf : alookup s.store gid = some fresh)
    (hq : fresh.players = [q0, q1]) :
    handle_end_of_round now gid g s = .ok
      { s with
        store := aset s.store gid (next_round_game now g.match_score fresh),
        effects := s.effects ++
          (if fresh.finished then [] else
            [Effect.publish gid ⟨"start", EventData.start Colour.black
               (fresh.time_control * MILLISECONDS_PER_MINUTE) (fresh.round + 1)
               fresh.n_rounds⟩ q1,
             Effect.publish gid ⟨"start", EventData.start Colour.white
               (fresh.time_control * MILLISECONDS_PER_MINUTE) (fresh.round + 1)
               fresh.n_rounds⟩ q0]) } := by
  simp only [handle_end_of_round, if_neg hr, hp0, hf]
  by_cases hfin : fresh.finished
  · simp [next_round_game, hfin]
  · simp [next_round_game, hq, hfin, List.append_assoc]

theorem accept_game_run (shuffle : List String → List String) (now : Int)
    (sid gid wallet_addr p0 p1 : String) (rest : List String)
    (game : Game) (s : SystemState)
    (hst : alookup s.store gid = some game)
    (hsh : shuffle (game.players ++ [sid]) = p0 :: p1 :: rest) :
    accept_game shuffle now sid gid wallet_addr s = .ok
      { store := aset s.store gid (accepted_game shuffle now sid wallet_addr game),
        player_gid := aset s.player_gid sid gid,
        game_ctags := aset s.game_ctags gid
          (ctagName gid sid :: (alookup s.game_ctags gid).getD []),
        effects := s.effects ++
          [Effect.enterRoom sid gid,
           Effect.queueDeclare gid sid,
           Effect.queueBind gid sid sid,
           Effect.queueBind gid sid BROADCAST_KEY,
           Effect.basicConsume gid sid,
           Effect.publish gid
             ⟨"start", EventData.start Colour.black game.tr_white game.round game.n_rounds⟩ p0,
           Effect.publish gid
             ⟨"start", EventData.start Colour.white game.tr_white game.round game.n_rounds⟩ p1,
           Effect.incrStat "n_games" 1,
           Effect.incrStat "total_wagered" (game.wager * 2)] } := by
  simp only [accept_game, hst, accepted_game, hsh, List.get?]

theorem clear_game_multi_run (sid gid : String) (game : Game) (s : SystemState)
    (hlen : 1 < game.players.length) (hmem : sid ∈ game.players) :
    clear_game sid game gid s = .ok
      { s with
        store := aset s.store gid { game with players := game.players.erase sid },
        player_gid := aremove s.player_gid sid,
        effects := s.effects ++
          [Effect.queueUnbind gid sid sid,
           Effect.queueUnbind gid sid BROADCAST_KEY,
           Effect.leaveRoom sid gid] } := by
  simp only [clear_game, if_pos hlen, if_pos hmem]

theorem clear_game_sole_run (sid gid : String) (game : Game) (s : SystemState)
    (hlen : ¬ 1 < game.players.length) :
    clear_game sid game gid s = .ok
      { store := aremove s.store gid,
        player_gid := aremove s.player_gid sid,
        game_ctags := aremove s.game_ctags gid,
        effects := s.effects ++
          ([Effect.queueUnbind gid sid sid,
            Effect.queueUnbind gid sid BROADCAST_KEY,
            Effect.leaveRoom sid gid,
            Effect.closeRoom gid] ++
           ((alookup s.game_ctags gid).getD []).map Effect.basicCancel ++
           [Effect.exchangeDelete gid]) } := by
  simp [clear_game, if_neg hlen, List.append_assoc]

theorem handle_exit_noreg_run (sid : String) (s : SystemState)
    (hreg : alookup s.player_gid sid = none) :
    handle_exit sid s = .ok s := by
  simp only [handle_exit, hreg]

theorem handle_exit_skip_run (sid gid : String) (g : Game) (s : SystemState)
    (hreg : alookup s.player_gid sid = some gid)
    (hst : alookup s.store gid = some g)
    (hcond : ¬ (1 < g.players.length ∧ g.finished = false)) :
    handle_exit sid s = clear_game sid g gid s := by
  simp only [handle_exit, hreg, hst, if_neg hcond]

theorem handle_exit_abandon_run (sid gid opp wopp : String) (i : Nat)
    (g : Game) (s : SystemState)
    (hreg : alookup s.player_gid sid = some gid)
    (hst : alookup s.store gid = some g)
    (hlen : 1 < g.players.length)
    (hfin : g.finished = false)
    (hi : indexOfP g.players sid = some i)
    (hopp : g.players.get? (opponent_ind i) = some opp)
    (hw : alookup g.player_wallet_addrs opp = some wopp) :
    handle_exit sid s = .ok
      { store := aset s.store gid
          { g with finished := true, players := g.players.erase sid },
        player_gid := aremove s.player_gid sid,
        game_ctags := s.game_ctags,
        effects := s.effects ++
          [Effect.publish gid
             ⟨"move", EventData.moveEv (opponent_ind i) Outcome.abandoned g.match_score⟩
             BROADCAST_KEY,
           Effect.publish gid
             ⟨"matchEnded", EventData.matchEnded (some (opponent_ind i))⟩ BROADCAST_KEY,
           Effect.declareWinner gid wopp,
           Effect.queueUnbind gid sid sid,
           Effect.queueUnbind gid sid BROADCAST_KEY,
           Effect.leaveRoom sid gid] } := by
  have hmem : sid ∈ g.players := indexOfP_mem g.players sid i hi
  simp only [handle_exit, hreg, hst, if_pos (And.intro hlen hfin), hi, hopp, hw]
  rw [clear_game_multi_run sid gid { g with finished := true } _ hlen hmem]
  simp [aset_aset, List.append_assoc]

theorem clear_game_player_gid (sid gid : String) (game : Game) (s s' : SystemState) :
    clear_game sid game gid s = .ok s' → s'.player_gid = aremove s.player_gid sid := by
  by_cases h1 : 1 < game.players.length
  · by_cases h2 : sid ∈ game.players
    · rw [clear_game_multi_run sid gid game s h1 h2]
      intro h
      rw [← Except.ok.inj h]
    · simp [clear_game, if_pos h1, if_neg h2]
  · rw [clear_game_sole_run sid gid game s h1]
    intro h
    rw [← Except.ok.inj h]

theorem clear_game_settlement (sid gid : String) (game : Game) (s s' : SystemState) :
    clear_game sid game gid s = .ok s' →
    settlement_count s'.effects = settlement_count s.effects := by
  by_cases h1 : 1 < game.players.length
  · by_cases h2 : sid ∈ game.players
    · rw [clear_game_multi_run sid gid game s h1 h2]
      intro h
      rw [← Except.ok.inj h]
      simp [settlement_count_append, settlement_count, is_settlement, List.filter_cons]
    · simp [clear_game, if_pos h1, if_neg h2]
  · rw [clear_game_sole_run sid gid game s h1]
    intro h
    rw [← Except.ok.inj h]
    simp [settlement_count_append, settlement_count_map_cancel, settlement_count,
      is_settlement, List.filter_cons, List.filter_append]

theorem handle_exit_clears_registry (sid : String) (s s' : SystemState) :
    handle_exit sid s = .ok s' → alookup s'.player_gid sid = none := by
  intro h
  unfold handle_exit at h
  split at h
  · rw [← Except.ok.inj h]
    assumption
  · split at h
    · exact Except.noConfusion h
    · split at h
      · split at h
        · exact Except.noConfusion h
        · dsimp only at h
          split at h
          · exact Except.noConfusion h
          · split at h
            · exact Except.noConfusion h
            · rw [clear_game_player_gid _ _ _ _ _ h]
              exact alookup_aremove_self _ _
      · rw [clear_game_player_gid _ _ _ _ _ h]
        exact alookup_aremove_self _ _

/-- C2: for a registry-mapped connection whose game has more than one
player and is unfinished, `handle_exit` publishes a "move" event carrying
the abandonment outcome and the current match score, broadcasts
"matchEnded" naming the opponent's index as overall winner, sets
`finished = true` and persists the game, and invokes the settlement
service exactly once, declaring the opponent (by wallet address) the
winner. -/
theorem c2_abandonment_declares_opponent (sid gid opp wopp : String) (i : Nat)
    (g : Game) (s : SystemState)
    (hreg : alookup s.player_gid sid = some gid)
    (hst : alookup s.store gid = some g)
    (hlen : 1 < g.players.length)
    (hfin : g.finished = false)
    (hi : indexOfP g.players sid = some i)
    (hopp : g.players.get? (opponent_ind i) = some opp)
    (hw : alookup g.player_wallet_addrs opp = some wopp) :
    ∃ s', handle_exit sid s = .ok s' ∧
      alookup s'.store gid = some
        { g with finished := true, players := g.players.erase sid } ∧
      s'.effects = s.effects ++
        [Effect.publish gid
           ⟨"move", EventData.moveEv (opponent_ind i) Outcome.abandoned g.match_score⟩
           BROADCAST_KEY,
         Effect.publish gid
           ⟨"matchEnded", EventData.matchEnded (some (opponent_ind i))⟩ BROADCAST_KEY,
         Effect.declareWinner gid wopp,
         Effect.queueUnbind gid sid sid,
         Effect.queueUnbind gid sid BROADCAST_KEY,
         Effect.leaveRoom sid gid] ∧
      settlement_count s'.effects = settlement_count s.effects + 1 := by
  refine ⟨_, handle_exit_abandon_run sid gid opp wopp i g s hreg hst hlen hfin hi hopp hw,
    ?_, ?_, ?_⟩
  · exact alookup_aset_self _ _ _
  · rfl
  · simp [settlement_count_append, settlement_count, is_settlement, List.filter_cons,
      List.filter_append]

theorem c2_abandonment_declares_opponent_witness :
    ∃ s', handle_exit "a" sTwo = .ok s' ∧
      settlement_count s'.effects = settlement_count sTwo.effects + 1 := by
  obtain ⟨s', h1, _, _, h4⟩ :=
    c2_abandonment_declares_opponent "a" "g1" "b" "wb" 0 gTwo sTwo rfl rfl
      (by decide) rfl rfl rfl rfl
  exact ⟨s', h1, h4⟩

/-- C9: `handle_exit` is a no-op (store, registry, broker topology and
rooms all unchanged — the whole state is returned untouched) for a
connection with no registry entry; consequently delivering the same
disconnect notification twice has the same effect as delivering it
once. -/
theorem c9_exit_idempotent (sid : String) (s : SystemState) :
    (alookup s.player_gid sid = none → handle_exit sid s = .ok s) ∧
    (∀ s', handle_exit sid s = .ok s' → handle_exit sid s' = .ok s') :=
  ⟨handle_exit_noreg_run sid s,
   fun s' h => handle_exit_noreg_run sid s' (handle_exit_clears_registry sid s s' h)⟩

theorem c9_exit_idempotent_witness :
    alookup sEmpty.player_gid "a" = none ∧ handle_exit "a" sEmpty = .ok sEmpty :=
  ⟨rfl, (c9_exit_idempotent "a" sEmpty).1 rfl⟩

/-- C10: `handle_exit` reaches the settlement service exactly when the
loaded game has more than one player and is unfinished: (i) when that
condition fails, no settlement call is added; (ii) in particular, when the
sole remaining player disconnects, the snapshot is deleted from the store,
the room is closed and the exchange deleted, with no settlement (and no
cancellation) call; (iii) in the abandonment case the opponent is declared
winner exactly once. -/
theorem c10_settlement_iff :
    (∀ sid gid g s s',
       alookup s.player_gid sid = some gid →
       alookup s.store gid = some g →
       ¬ (1 < g.players.length ∧ g.finished = false) →
       handle_exit sid s = .ok s' →
       settlement_count s'.effects = settlement_count s.effects) ∧
    (∀ sid gid g s,
       alookup s.player_gid sid = some gid →
       alookup s.store gid = some g →
       g.players = [sid] →
       ∃ s', handle_exit sid s = .ok s' ∧
         alookup s'.store gid = none ∧
         Effect.closeRoom gid ∈ s'.effects ∧
         Effect.exchangeDelete gid ∈ s'.effects ∧
         settlement_count s'.effects = settlement_count s.effects) ∧
    (∀ sid gid opp wopp i g s,
       alookup s.player_gid sid = some gid →
       alookup s.store gid = some g →
       1 < g.players.length → g.finished = false →
       indexOfP g.players sid = some i →
       g.players.get? (opponent_ind i) = some opp →
       alookup g.player_wallet_addrs opp = some wopp →
       ∃ s', handle_exit sid s = .ok s' ∧
         Effect.declareWinner gid wopp ∈ s'.effects ∧
         settlement_count s'.effects = settlement_count s.effects + 1) := by
  refine ⟨?_, ?_, ?_⟩
  · intro sid gid g s s' hreg hst hcond hok
    rw [handle_exit_skip_run sid gid g s hreg hst hcond] at hok
    exact clear_game_settlement sid gid g s s' hok
  · intro sid gid g s hreg hst hp
    have hlen : ¬ 1 < g.players.length := by simp [hp]
    have hcond : ¬ (1 < g.players.length ∧ g.finished = false) := by
      intro hc
      exact hlen hc.1
    rw [handle_exit_skip_run sid gid g s hreg hst hcond,
      clear_game_sole_run sid gid g s hlen]
    refine ⟨_, rfl, ?_, ?_, ?_, ?_⟩
    · exact alookup_aremove_self _ _
    · simp
    · simp
    · simp [settlement_count_append, settlement_count_map_cancel, settlement_count,
        is_settlement, List.filter_cons, List.filter_append]
  · intro sid gid opp wopp i g s hreg hst hlen hfin hi hopp hw
    refine ⟨_, handle_exit_abandon_run sid gid opp wopp i g s hreg hst hlen hfin hi hopp hw,
      ?_, ?_⟩
    · simp
    · simp [settlement_count_append, settlement_count, is_settlement, List.filter_cons]

theorem c10_settlement_iff_witness :
    ∃ s', handle_exit "a" sSolo = .ok s' ∧
      alookup s'.store "g1" = none ∧
      Effect.closeRoom "g1" ∈ s'.effects ∧
      Effect.exchangeDelete "g1" ∈ s'.effects ∧
      settlement_count s'.effects = settlement_count sSolo.effects :=
  c10_settlement_iff.2.1 "a" "g1" gSolo sSolo rfl rfl rfl

/-- C1: on the final round (`round = nRounds`) `handle_end_of_round`
compares `matchScore[players[0]]` with `matchScore[players[1]]` — strictly
greater on one side yields that index as `overallWinner`, equality yields
none — broadcasts a "matchEnded" event carrying that winner index or
null, sets `finished = true` and persists the game, and then calls the
settlement service exactly once: `declare_winner` with the winning
player's wallet address when a winner exists, else `declare_draw`. -/
theorem c1_final_round_settlement (now : Int) (gid p0 p1 w0 w1 : String)
    (sc0 sc1 : Int) (g : Game) (s : SystemState)
    (hr : g.round = g.n_rounds)
    (hp : g.players = [p0, p1])
    (hs0 : alookup g.match_score p0 = some sc0)
    (hs1 : alookup g.match_score p1 = some sc1)
    (hw0 : alookup g.player_wallet_addrs p0 = some w0)
    (hw1 : alookup g.player_wallet_addrs p1 = some w1) :
    handle_end_of_round now gid g s = .ok
      { s with
        store := aset s.store gid { g with finished := true },
        effects := s.effects ++
          [Effect.publish gid ⟨"matchEnded", EventData.matchEnded
            (if sc1 < sc0 then some 0 else if sc0 < sc1 then some 1 else none)⟩
            BROADCAST_KEY,
           if sc1 < sc0 then Effect.declareWinner gid w0
           else if sc0 < sc1 then Effect.declareWinner gid w1
           else Effect.declareDraw gid] } ∧
    settlement_count (s.effects ++
      [Effect.publish gid ⟨"matchEnded", EventData.matchEnded
        (if sc1 < sc0 then some 0 else if sc0 < sc1 then some 1 else none)⟩
        BROADCAST_KEY,
       if sc1 < sc0 then Effect.declareWinner gid w0
       else if sc0 < sc1 then Effect.declareWinner gid w1
       else Effect.declareDraw gid]) = settlement_count s.effects + 1 := by
  refine ⟨handle_end_of_round_final_run now gid p0 p1 w0 w1 sc0 sc1 g s
    hr hp hs0 hs1 hw0 hw1, ?_⟩
  rcases lt_trichotomy sc0 sc1 with hlt | heq | hgt
  · simp [if_neg (not_lt_of_lt hlt), if_pos hlt, settlement_count_append,
      settlement_count, is_settlement, List.filter_cons]
  · simp [heq, lt_irrefl, settlement_count_append, settlement_count,
      is_settlement, List.filter_cons]
  · simp [if_pos hgt, settlement_count_append, settlement_count,
      is_settlement, List.filter_cons]

theorem c1_final_round_settlement_witness :
    handle_end_of_round 0 "g1" gFinal sFinal = .ok
      { sFinal with
        store := aset sFinal.store "g1" { gFinal with finished := true },
        effects := sFinal.effects ++
          [Effect.publish "g1" ⟨"matchEnded", EventData.matchEnded (some 0)⟩
            BROADCAST_KEY,
           Effect.declareWinner "g1" "wa"] } := by
  have h := (c1_final_round_settlement 0 "g1" "a" "b" "wa" "wb" 3 1 gFinal sFinal
    rfl rfl rfl rfl rfl rfl).1
  simpa using h

/-- C3: on a non-final round `handle_end_of_round` re-fetches the game
from the store after the cooldown, restores the match score captured
before the wait, resets the board, increments `round` by exactly 1,
reverses `players`, resets both clocks to
`time_control * MILLISECONDS_PER_MINUTE`, refreshes
`last_turn_timestamp`, and persists; it broadcasts per-player "start"
events with the updated colour, round and total rounds if and only if
the refreshed game is not finished. -/
theorem c3_round_advance (now : Int) (gid p0 q0 q1 : String) (g fresh : Game)
    (s : SystemState)
    (hr : g.round < g.n_rounds)
    (hp0 : g.players.get? 0 = some p0)
    (hf : alookup s.store gid = some fresh)
    (hq : fresh.players = [q0, q1]) :
    handle_end_of_round now gid g s = .ok
      { s with
        store := aset s.store gid
          { fresh with
            round := fresh.round + 1,
            match_score := g.match_score,
            board := Board.reset fresh.board,
            players := fresh.players.reverse,
            tr_white := fresh.time_control * MILLISECONDS_PER_MINUTE,
            tr_black := fresh.time_control * MILLISECONDS_PER_MINUTE,
            last_turn_timestamp := now },
        effects := s.effects ++
          (if fresh.finished then [] else
            [Effect.publish gid ⟨"start", EventData.start Colour.black
               (fresh.time_control * MILLISECONDS_PER_MINUTE) (fresh.round + 1)
               fresh.n_rounds⟩ q1,
             Effect.publish gid ⟨"start", EventData.start Colour.white
               (fresh.time_control * MILLISECONDS_PER_MINUTE) (fresh.round + 1)
               fresh.n_rounds⟩ q0]) } := by
  have h := handle_end_of_round_next_run now gid p0 q0 q1 g fresh s
    (Nat.ne_of_lt hr) hp0 hf hq
  simpa [next_round_game] using h

theorem c3_round_advance_witness :
    handle_end_of_round 7 "g1" gTwo sTwo = .ok
      { sTwo with
        store := aset sTwo.store "g1"
          { gTwo with
            round := gTwo.round + 1,
            match_score := gTwo.match_score,
            board := Board.reset gTwo.board,
            players := gTwo.players.reverse,
            tr_white := gTwo.time_control * MILLISECONDS_PER_MINUTE,
            tr_black := gTwo.time_control * MILLISECONDS_PER_MINUTE,
            last_turn_timestamp := 7 },
        effects := sTwo.effects ++
          (if gTwo.finished then [] else
            [Effect.publish "g1" ⟨"start", EventData.start Colour.black
               (gTwo.time_control * MILLISECONDS_PER_MINUTE) (gTwo.round + 1)
               gTwo.n_rounds⟩ "b",
             Effect.publish "g1" ⟨"start", EventData.start Colour.white
               (gTwo.time_control * MILLISECONDS_PER_MINUTE) (gTwo.round + 1)
               gTwo.n_rounds⟩ "a"]) } :=
  c3_round_advance 7 "g1" "a" "a" "b" gTwo gTwo sTwo (by decide) rfl rfl rfl

/-- C4: the delivery wrapper makes at most `MAX_EMIT_RETRIES` total emit
attempts for an event: the attempt counter starts at 1, each failure with
`attempts < MAX_EMIT_RETRIES` immediately resubmits the same event to the
same connection with `attempts + 1`, and when the bound is reached the
failure is logged and the event dropped; the wrapper always returns a
`DeliveryOutcome` — a delivery failure never surfaces an exception to any
caller. -/
theorem c4_bounded_retry (m : Nat) (fails : Nat → Bool) (h1 : 1 ≤ m) :
    (deliver_with_retry m fails 1).attempts ≤ m ∧
    (∀ a, fails a = true → a < m →
      deliver_with_retry m fails a = deliver_with_retry m fails (a + 1)) ∧
    ((∀ k, fails k = true) →
      deliver_with_retry m fails 1 = DeliveryOutcome.dropped m) := by
  refine ⟨retry_le m fails 1 h1, ?_,
    fun hall => retry_all_fail m fails 1 hall le_rfl h1⟩
  intro a hf hlt
  rw [deliver_with_retry, if_pos hf, if_pos hlt]

theorem c4_bounded_retry_witness :
    1 ≤ 3 ∧ (deliver_with_retry 3 (fun _ => true) 1).attempts ≤ 3 ∧
    deliver_with_retry 3 (fun _ => true) 1 = DeliveryOutcome.dropped 3 :=
  ⟨by decide,
   (c4_bounded_retry 3 (fun _ => true) (by decide)).1,
   (c4_bounded_retry 3 (fun _ => true) (by decide)).2.2 (fun _ => rfl)⟩

theorem mem_keys_aremove {α : Type} (m : List (String × α)) (k x : String) :
    x ∈ (aremove m k).map Prod.fst → x ∈ m.map Prod.fst := by
  induction m with
  | nil => intro h; simp [aremove] at h
  | cons p rest ih =>
    by_cases hp : p.1 = k
    · intro h
      simp only [aremove, if_pos hp] at h
      exact List.mem_cons_of_mem _ (ih h)
    · intro h
      simp only [aremove, if_neg hp, List.map_cons] at h
      rcases List.mem_cons.mp h with h1 | h2
      · rw [h1]; exact List.mem_cons_self _ _
      · exact List.mem_cons_of_mem _ (ih h2)

theorem handle_end_of_round_final_store (now : Int) (gid : String) (g : Game)
    (s s' : SystemState) (hr : g.round = g.n_rounds) :
    handle_end_of_round now gid g s = .ok s' →
    s'.store = aset s.store gid { g with finished := true } := by
  intro h
  unfold handle_end_of_round at h
  rw [if_pos hr] at h
  split at h <;> try exact Except.noConfusion h
  split at h <;> try exact Except.noConfusion h
  dsimp only at h
  split at h <;> try exact Except.noConfusion h
  · split at h <;> try exact Except.noConfusion h
    split at h <;> try exact Except.noConfusion h
    rw [← Except.ok.inj h]
  · rw [← Except.ok.inj h]

theorem handle_end_of_round_next_store (now : Int) (gid : String) (g fresh : Game)
    (s s' : SystemState) (hr : g.round ≠ g.n_rounds)
    (hf : alookup s.store gid = some fresh) :
    handle_end_of_round now gid g s = .ok s' →
    s'.store = aset s.store gid (next_round_game now g.match_score fresh) := by
  intro h
  unfold handle_end_of_round at h
  rw [if_neg hr] at h
  split at h <;> try exact Except.noConfusion h
  rw [hf] at h
  dsimp only at h
  split at h
  · rw [← Except.ok.inj h]
  · split at h <;> try exact Except.noConfusion h
    rw [← Except.ok.inj h]

theorem accept_game_store (shuffle : List String → List String) (now : Int)
    (sid gid wa : String) (game : Game) (s s' : SystemState)
    (hst : alookup s.store gid = some game) :
    accept_game shuffle now sid gid wa s = .ok s' →
    s'.store = aset s.store gid (accepted_game shuffle now sid wa game) := by
  intro h
  unfold accept_game at h
  rw [hst] at h
  dsimp only at h
  split at h <;> try exact Except.noConfusion h
  rw [← Except.ok.inj h]

theorem create_run (cfg : Config) (gid sid : String) (tc w : Int) (wa : String)
    (nr : Nat) (s : SystemState)
    (hv : _validate_game_creation cfg s tc w nr = none) :
    create cfg gid sid tc w wa nr s = .ok
      { store := aset s.store gid
          { players := [sid], board := Board.init, wager := w,
            player_wallet_addrs := [(sid, wa)], time_control := tc,
            match_score := [(sid, 0)], n_rounds := nr, round := 1,
            tr_white := tc * MILLISECONDS_PER_MINUTE,
            tr_black := tc * MILLISECONDS_PER_MINUTE },
        player_gid := aset s.player_gid sid gid,
        game_ctags := aset s.game_ctags gid
          (ctagName gid sid :: (alookup s.game_ctags gid).getD []),
        effects := s.effects ++
          [Effect.enterRoom sid gid,
           Effect.emit "gameId" (EventData.text gid) sid,
           Effect.exchangeDeclare gid,
           Effect.queueDeclare gid sid,
           Effect.queueBind gid sid sid,
           Effect.queueBind gid sid BROADCAST_KEY,
           Effect.basicConsume gid sid] } := by
  simp only [create, hv]

theorem create_store (cfg : Config) (gid sid : String) (tc w : Int) (wa : String)
    (nr : Nat) (s s' : SystemState) :
    create cfg gid sid tc w wa nr s = .ok s' →
    s'.store = aset s.store gid
      { players := [sid], board := Board.init, wager := w,
        player_wallet_addrs := [(sid, wa)], time_control := tc,
        match_score := [(sid, 0)], n_rounds := nr, round := 1,
        tr_white := tc * MILLISECONDS_PER_MINUTE,
        tr_black := tc * MILLISECONDS_PER_MINUTE } := by
  intro h
  unfold create at h
  split at h <;> try exact Except.noConfusion h
  dsimp only at h
  rw [← Except.ok.inj h]

theorem clear_game_store (sid gid : String) (game : Game) (s s' : SystemState) :
    clear_game sid game gid s = .ok s' →
    (sid ∈ game.players ∧ 1 < game.players.length ∧
      s'.store = aset s.store gid { game with players := game.players.erase sid }) ∨
    (¬ 1 < game.players.length ∧ s'.store = aremove s.store gid) := by
  intro h
  by_cases h1 : 1 < game.players.length
  · by_cases h2 : sid ∈ game.players
    · rw [clear_game_multi_run sid gid game s h1 h2] at h
      exact Or.inl ⟨h2, h1, by rw [← Except.ok.inj h]⟩
    · simp [clear_game, if_pos h1, if_neg h2] at h
  · rw [clear_game_sole_run sid gid game s h1] at h
    exact Or.inr ⟨h1, by rw [← Except.ok.inj h]⟩

/-- C5 (amended): the invariant "matchScore keys ⊆ players" holds for the
snapshot persisted by `create`, is preserved by `accept_game` (for any
permutation the shuffle produces), and by both branches of
`handle_end_of_round` (the non-final branch relative to the re-fetched
snapshot); but `clear_game` — and hence the `handle_exit` path through
it — removes the departing player from `players` without removing their
`match_score` entry, so after `clear_game` only the weaker
"matchScore keys ⊆ players ∪ {departed sid}" holds. -/
theorem c5_score_keys_invariant :
    (∀ cfg gid sid tc w wa nr s s',
       create cfg gid sid tc w wa nr s = .ok s' →
       ∀ g', alookup s'.store gid = some g' → score_keys_sub g') ∧
    (∀ shuffle now sid gid wa game s s',
       (∀ (l : List String) (x : String), x ∈ shuffle l ↔ x ∈ l) →
       alookup s.store gid = some game → score_keys_sub game →
       accept_game shuffle now sid gid wa s = .ok s' →
       ∀ g', alookup s'.store gid = some g' → score_keys_sub g') ∧
    (∀ now gid g s s',
       g.round = g.n_rounds → score_keys_sub g →
       handle_end_of_round now gid g s = .ok s' →
       ∀ g', alookup s'.store gid = some g' → score_keys_sub g') ∧
    (∀ now gid g fresh s s',
       g.round ≠ g.n_rounds →
       alookup s.store gid = some fresh →
       (∀ k ∈ score_keys g, k ∈ fresh.players) →
       handle_end_of_round now gid g s = .ok s' →
       ∀ g', alookup s'.store gid = some g' → score_keys_sub g') ∧
    (∀ sid gid game s s',
       score_keys_sub game →
       clear_game sid game gid s = .ok s' →
       ∀ g', alookup s'.store gid = some g' →
       ∀ k ∈ score_keys g', k ∈ g'.players ∨ k = sid) := by
  refine ⟨?_, ?_, ?_, ?_, ?_⟩
  · intro cfg gid sid tc w wa nr s s' h g' hg'
    rw [create_store cfg gid sid tc w wa nr s s' h, alookup_aset_self] at hg'
    obtain rfl := Option.some.inj hg'
    simp [score_keys_sub, score_keys]
  · intro shuffle now sid gid wa game s s' hshuffle hst hsub h g' hg'
    rw [accept_game_store shuffle now sid gid wa game s s' hst h,
      alookup_aset_self] at hg'
    obtain rfl := Option.some.inj hg'
    intro k hk
    simp only [score_keys, accepted_game, aset, List.map_cons] at hk
    show k ∈ shuffle (game.players ++ [sid])
    rcases List.mem_cons.mp hk with rfl | hk2
    · exact (hshuffle _ _).mpr (by simp)
    · have hkm : k ∈ game.match_score.map Prod.fst := mem_keys_aremove _ _ _ hk2
      have hkp := hsub k hkm
      exact (hshuffle _ _).mpr (by simp [hkp])
  · intro now gid g s s' hr hsub h g' hg'
    rw [handle_end_of_round_final_store now gid g s s' hr h, alookup_aset_self] at hg'
    obtain rfl := Option.some.inj hg'
    exact hsub
  · intro now gid g fresh s s' hr hf hkeys h g' hg'
    rw [handle_end_of_round_next_store now gid g fresh s s' hr hf h,
      alookup_aset_self] at hg'
    obtain rfl := Option.some.inj hg'
    intro k hk
    exact List.mem_reverse.mpr (hkeys k hk)
  · intro sid gid game s s' hsub h g' hg'
    rcases clear_game_store sid gid game s s' h with ⟨hmem, h1, hstore⟩ | ⟨h1, hstore⟩
    · rw [hstore, alookup_aset_self] at hg'
      obtain rfl := Option.some.inj hg'
      intro k hk
      have hkp : k ∈ game.players := hsub k hk
      by_cases hks : k = sid
      · exact Or.inr hks
      · exact Or.inl ((List.mem_erase_of_ne hks).mpr hkp)
    · rw [hstore, alookup_aremove_self] at hg'
      exact Option.noConfusion hg'

theorem c5_score_keys_invariant_witness :
    create cfgW "g9" "a" 3 50 "wa" 2 sEmpty = .ok sNew ∧
    alookup sNew.store "g9" = some gNew ∧ score_keys_sub gNew :=
  ⟨rfl, rfl,
   c5_score_keys_invariant.1 cfgW "g9" "a" 3 50 "wa" 2 sEmpty sNew rfl gNew rfl⟩

theorem c5_clear_game_counterexample :
    stored_score_sub sTwo "g1" = true ∧
    (clear_game "a" gTwo "g1" sTwo).map (fun s'' => stored_score_sub s'' "g1") =
      .ok false :=
  ⟨rfl, rfl⟩

/-- C6 (amended): `create` persists a single-player game;
`handle_end_of_round` never changes the number of players (it keeps the
in-memory players on the final round and the re-fetched players, reversed,
otherwise); `clear_game` strictly decreases it; but `accept_game` appends
unconditionally — it persists `players` of length n+1 whenever the loaded
game had n, so a game that already has two players is persisted with
three; only `get_game_details` rejects joining a full game. -/
theorem c6_players_length :
    (∀ cfg gid sid tc w wa nr s s',
       create cfg gid sid tc w wa nr s = .ok s' →
       stored_players_len s' gid = some 1) ∧
    (∀ now gid g s s', handle_end_of_round now gid g s = .ok s' →
       ∀ g', alookup s'.store gid = some g' →
       g'.players.length = g.players.length ∨
       (∃ fresh, alookup s.store gid = some fresh ∧
         g'.players.length = fresh.players.length)) ∧
    (∀ sid gid game s s', clear_game sid game gid s = .ok s' →
       ∀ g', alookup s'.store gid = some g' →
       g'.players.length + 1 = game.players.length) ∧
    (∀ shuffle now sid gid wa game s s',
       (∀ l : List String, (shuffle l).length = l.length) →
       alookup s.store gid = some game →
       accept_game shuffle now sid gid wa s = .ok s' →
       stored_players_len s' gid = some (game.players.length + 1)) ∧
    (∀ (validGid : String → Bool) sid gid s g,
       validGid gid = true → alookup s.store gid = some g →
       2 ≤ g.players.length →
       get_game_details validGid sid gid s =
         .error "This game already has two players") := by
  refine ⟨?_, ?_, ?_, ?_, ?_⟩
  · intro cfg gid sid tc w wa nr s s' h
    rw [stored_players_len, create_store cfg gid sid tc w wa nr s s' h,
      alookup_aset_self]
    rfl
  · intro now gid g s s' h g' hg'
    by_cases hr : g.round = g.n_rounds
    · rw [handle_end_of_round_final_store now gid g s s' hr h, alookup_aset_self] at hg'
      obtain rfl := Option.some.inj hg'
      exact Or.inl rfl
    · rcases hf : alookup s.store gid with _ | fresh
      · exfalso
        unfold handle_end_of_round at h
        rw [if_neg hr] at h
        split at h <;> try exact Except.noConfusion h
        rw [hf] at h
        exact Except.noConfusion h
      · rw [handle_end_of_round_next_store now gid g fresh s s' hr hf h,
          alookup_aset_self] at hg'
        obtain rfl := Option.some.inj hg'
        exact Or.inr ⟨fresh, rfl, by simp [next_round_game]⟩
  · intro sid gid game s s' h g' hg'
    rcases clear_game_store sid gid game s s' h with ⟨hmem, h1, hstore⟩ | ⟨h1, hstore⟩
    · rw [hstore, alookup_aset_self] at hg'
      obtain rfl := Option.some.inj hg'
      have := List.length_erase_of_mem hmem
      simp only [this]
      omega
    · rw [hstore, alookup_aremove_self] at hg'
      exact Option.noConfusion hg'
  · intro shuffle now sid gid wa game s s' hlen hst h
    rw [stored_players_len, accept_game_store shuffle now sid gid wa game s s' hst h,
      alookup_aset_self]
    simp [accepted_game, hlen]
  · intro validGid sid gid s g hv hst h2
    simp [get_game_details, hv, hst, h2]

theorem c6_players_length_witness :
    create cfgW "g9" "a" 3 50 "wa" 2 sEmpty = .ok sNew ∧
    stored_players_len sNew "g9" = some 1 :=
  ⟨rfl, c6_players_length.1 cfgW "g9" "a" 3 50 "wa" 2 sEmpty sNew rfl⟩

theorem c6_third_join_counterexample :
    stored_players_len sTwo "g1" = some 2 ∧
    (accept_game id 0 "c" "g1" "wc" sTwo).map
      (fun s'' => stored_players_len s'' "g1") = .ok (some 3) :=
  ⟨rfl, rfl⟩

/-- C7 (amended): in the "start" events published by `accept_game` (and
republished on round advance), the colour paired with the player at
index i of `players` is the i-th entry of `[BLACK, WHITE]`: index 0
receives BLACK — the FIRST entry — and list position 1 receives WHITE,
identically on both paths. -/
theorem c7_colour_mapping :
    (∀ (shuffle : List String → List String) (now : Int)
       (sid gid wa p0 p1 : String) (rest : List String)
       (game : Game) (s : SystemState),
       alookup s.store gid = some game →
       shuffle (game.players ++ [sid]) = p0 :: p1 :: rest →
       ∃ s', accept_game shuffle now sid gid wa s = .ok s' ∧
         Effect.publish gid ⟨"start", EventData.start Colour.black game.tr_white
           game.round game.n_rounds⟩ p0 ∈ s'.effects ∧
         Effect.publish gid ⟨"start", EventData.start Colour.white game.tr_white
           game.round game.n_rounds⟩ p1 ∈ s'.effects) ∧
    (∀ (now : Int) (gid p0 q0 q1 : String) (g fresh : Game) (s : SystemState),
       g.round ≠ g.n_rounds → g.players.get? 0 = some p0 →
       alookup s.store gid = some fresh → fresh.players = [q0, q1] →
       fresh.finished = false →
       ∃ s', handle_end_of_round now gid g s = .ok s' ∧
         Effect.publish gid ⟨"start", EventData.start Colour.black
           (fresh.time_control * MILLISECONDS_PER_MINUTE) (fresh.round + 1)
           fresh.n_rounds⟩ q1 ∈ s'.effects ∧
         Effect.publish gid ⟨"start", EventData.start Colour.white
           (fresh.time_control * MILLISECONDS_PER_MINUTE) (fresh.round + 1)
           fresh.n_rounds⟩ q0 ∈ s'.effects) := by
  constructor
  · intro shuffle now sid gid wa p0 p1 rest game s hst hsh
    refine ⟨_, accept_game_run shuffle now sid gid wa p0 p1 rest game s hst hsh,
      ?_, ?_⟩ <;> simp
  · intro now gid p0 q0 q1 g fresh s hr hp0 hf hq hfin
    refine ⟨_, handle_end_of_round_next_run now gid p0 q0 q1 g fresh s hr hp0 hf hq,
      ?_, ?_⟩ <;> simp [hfin]

theorem c7_colour_mapping_witness :
    ∃ s', accept_game id 0 "b" "g1" "wb" sSolo = .ok s' ∧
      Effect.publish "g1" ⟨"start", EventData.start Colour.black gSolo.tr_white
        gSolo.round gSolo.n_rounds⟩ "a" ∈ s'.effects ∧
      Effect.publish "g1" ⟨"start", EventData.start Colour.white gSolo.tr_white
        gSolo.round gSolo.n_rounds⟩ "b" ∈ s'.effects :=
  c7_colour_mapping.1 id 0 "b" "g1" "wb" "a" "b" [] gSolo sSolo rfl rfl

theorem c7_first_entry_counterexample :
    start_colour_to sC7after.effects "a" = some Colour.black ∧
    [Colour.black, Colour.white].get? 1 = some Colour.white ∧
    start_colour_to sC7after.effects "a" ≠ [Colour.black, Colour.white].get? 1 :=
  ⟨rfl, rfl, by decide⟩

/-- C8: `create` accepts the wager if and only if it lies within the
inclusive configured range (when the other admission checks pass);
otherwise it raises the wager validation error before any game is built
or persisted. -/
theorem c8_wager_range (cfg : Config) (gid sid : String) (tc w : Int)
    (wa : String) (nr : Nat) (s : SystemState)
    (hcap : s.store.length < cfg.concurrent_game_limit)
    (htc : tc ∈ cfg.valid_time_controls)
    (hnr : cfg.valid_n_rounds_range.1 ≤ nr ∧ nr ≤ cfg.valid_n_rounds_range.2) :
    ((∃ s', create cfg gid sid tc w wa nr s = .ok s') ↔
      (cfg.valid_wager_range.1 ≤ w ∧ w ≤ cfg.valid_wager_range.2)) ∧
    (¬ (cfg.valid_wager_range.1 ≤ w ∧ w ≤ cfg.valid_wager_range.2) →
      create cfg gid sid tc w wa nr s = .error "Invalid wager") := by
  have hc : ¬ cfg.concurrent_game_limit ≤ s.store.length := by omega
  by_cases hw : cfg.valid_wager_range.1 ≤ w ∧ w ≤ cfg.valid_wager_range.2
  · have hvn : _validate_game_creation cfg s tc w nr = none := by
      simp only [_validate_game_creation, if_neg hc, if_neg (not_not_intro hw),
        if_neg (not_not_intro htc), if_neg (not_not_intro hnr)]
    exact ⟨⟨fun _ => hw, fun _ => ⟨_, create_run cfg gid sid tc w wa nr s hvn⟩⟩,
      fun hn => absurd hw hn⟩
  · have hval : _validate_game_creation cfg s tc w nr = some "Invalid wager" := by
      simp only [_validate_game_creation, if_neg hc, if_pos hw]
    constructor
    · constructor
      · rintro ⟨s', hs'⟩
        simp only [create, hval] at hs'
        exact Except.noConfusion hs'
      · intro hcontra
        exact absurd hcontra hw
    · intro _
      simp only [create, hval]

theorem c8_wager_range_witness :
    create cfgW "g" "a" 3 0 "w" 1 sEmpty = .error "Invalid wager" ∧
    (∃ s', create cfgW "g" "a" 3 50 "w" 1 sEmpty = .ok s') ∧
    (∃ s', create cfgW "g" "a" 3 100 "w" 1 sEmpty = .ok s') ∧
    create cfgW "g" "a" 3 101 "w" 1 sEmpty = .error "Invalid wager" :=
  ⟨(c8_wager_range cfgW "g" "a" 3 0 "w" 1 sEmpty (by decide) (by decide)
      (by decide)).2 (by decide),
   (c8_wager_range cfgW "g" "a" 3 50 "w" 1 sEmpty (by decide) (by decide)
      (by decide)).1.mpr (by decide),
   (c8_wager_range cfgW "g" "a" 3 100 "w" 1 sEmpty (by decide) (by decide)
      (by decide)).1.mpr (by decide),
   (c8_wager_range cfgW "g" "a" 3 101 "w" 1 sEmpty (by decide) (by decide)
      (by decide)).2 (by decide)⟩
